import Mathlib

/-!
Verification development for the SoS workflow engine core
(`pysos/dag.py`, `pysos/sos_script.py`, `src/sos/controller.py`).

Python values are embedded shallowly: machine strings are `String`,
Python `None` is `Option.none`, Python lists are Lean lists, and the
`Undetermined` sentinel of `sos_eval` is a dedicated constructor.
Source lines are modeled without their trailing newline character.
-/

namespace SoS

/-! ## Targets (`pysos/sos_eval.Undetermined` sentinel plus plain lists)

A target set as stored on a DAG node is either the `Undetermined`
sentinel or a concrete Python list of targets (targets themselves are
embedded as strings, as in the test scripts).  -/

inductive Targets where
  | undetermined : Targets
  | known : List String → Targets
deriving DecidableEq, Repr

def Targets.isUndetermined : Targets → Bool
  | .undetermined => true
  | .known _ => false

/-- `any(x in other for x in sel)` over two known lists. -/
def sharesElement (sel : List String) (other : List String) : Bool :=
  sel.any (fun x => other.contains x)

/-! ## `pysos/dag.py`: `SoS_Node` -/

structure SoS_Node where
  _uuid : Nat
  _node_id : String
  _node_index : Option Int
  _input_targets : Targets
  _depends_targets : List String
  _output_targets : Targets
  _change_context : Bool
  _status : Option String
deriving DecidableEq, Repr

/-- Python lists are heap references; `copy.copy` in the constructor takes
a value snapshot.  A heap maps list addresses to list values. -/
def Heap := Nat → List String

def heapUpdate (h : Heap) (r : Nat) (v : List String) : Heap :=
  fun a => if a = r then v else h a

/-- `SoS_Node.__init__` (dag.py:93-105): `None` input/output become
`Undetermined()`, `None` depends becomes `[]`; non-`None` arguments are
dereferenced and copied (`copy.copy`), so the node stores the heap value
at construction time. -/
def SoS_Node.init (h : Heap) (uuid : Nat) (node_name : String)
    (node_index : Option Int) (input_targets depends_targets output_targets : Option Nat)
    (change_context : Bool) : SoS_Node :=
  { _uuid := uuid
    _node_id := node_name
    _node_index := node_index
    _input_targets := match input_targets with
      | none => .undetermined
      | some r => .known (h r)
    _depends_targets := match depends_targets with
      | none => []
      | some r => h r
    _output_targets := match output_targets with
      | none => .undetermined
      | some r => .known (h r)
    _change_context := change_context
    _status := none }

/-- `SoS_Node.depends_on` (dag.py:110-144). `self` is the dependent node,
`node` the candidate dependency. -/
def SoS_Node.depends_on (self node : SoS_Node) : Bool :=
  -- 0. if myself is completed, it does not depend on any step
  if self._status = some "completed" then false
  -- 1. context change by an earlier step
  else if node._change_context && node._node_index.isSome &&
      self._node_index.isSome &&
      (match node._node_index, self._node_index with
       | some a, some b => a < b
       | _, _ => false) then true
  -- 2. undetermined input depends on the immediately preceding step
  else if self._input_targets.isUndetermined && node._node_index.isSome &&
      self._node_index.isSome &&
      (match node._node_index, self._node_index with
       | some a, some b => a = b - 1
       | _, _ => false) then true
  -- 3. produce/consume on targets
  else if !node._output_targets.isUndetermined &&
      ((!self._input_targets.isUndetermined &&
        (match self._input_targets, node._output_targets with
         | .known ins, .known outs => sharesElement ins outs
         | _, _ => false)) ||
       (match node._output_targets with
        | .known outs => sharesElement self._depends_targets outs
        | .undetermined => false)) then true
  else false

/-! ## `pysos/dag.py`: `SoS_DAG` scheduling (`find_executable`) -/

/-- The DAG as seen by `find_executable`: nodes in insertion order and
directed edges as index pairs `(source, target)`. -/
structure SoS_DAG where
  nodes : List SoS_Node
  edges : List (Nat × Nat)
deriving Repr

def SoS_DAG.statusAt (g : SoS_DAG) (i : Nat) : Option String :=
  match g.nodes.get? i with
  | some nd => nd._status
  | none => none

/-- First loop body of `find_executable` (dag.py:172-181): node `i` is
returned when its status is unset and no in-edge source is incomplete. -/
def SoS_DAG.isReady (g : SoS_DAG) (i : Nat) : Bool :=
  g.statusAt i = none &&
    (g.edges.filter (fun e => e.2 = i)).all
      (fun e => g.statusAt e.1 = some "completed")

/-- `SoS_DAG.find_executable` (dag.py:169-186).  Returns `.ok (some i)`
for the first executable node, `.error _` for the scheduler fault, and
`.ok none` when everything is completed. -/
def SoS_DAG.find_executable (g : SoS_DAG) : Except String (Option Nat) :=
  match (List.range g.nodes.length).find? (fun i => g.isReady i) with
  | some i => .ok (some i)
  | none =>
    match (List.range g.nodes.length).find?
        (fun i => !(g.statusAt i = some "completed")) with
    | some i => .error ((g.nodes.get? i |>.map (·._node_id) |>.getD "") ++
        " is not completed yet has dependency")
    | none => .ok none

/-- `SoS_Node.__init__` followed by a mutation of the caller's list at
address `r`: the constructor copies, so the node keeps the values the
heap held at construction time. -/
def constructThenMutate (h : Heap) (uuid : Nat) (node_name : String)
    (node_index : Option Int) (ri rd ro : Nat) (cc : Bool)
    (r : Nat) (v : List String) : SoS_Node × Heap :=
  let n := SoS_Node.init h uuid node_name node_index (some ri) (some rd) (some ro) cc
  (n, heapUpdate h r v)

/-! ## Specification-level predicates for the DAG claims -/

/-- A node is ready in the sense of the spec (P5): status unset and every
in-edge predecessor completed. -/
def readySpec (g : SoS_DAG) (i : Nat) : Prop :=
  g.statusAt i = none ∧ ∀ e ∈ g.edges, e.2 = i → g.statusAt e.1 = some "completed"

/-! ## Helper lemmas -/

theorem range_find?_spec (p : Nat → Bool) (n : Nat) :
    match (List.range n).find? p with
    | some i => i < n ∧ p i = true ∧ ∀ j < i, p j = false
    | none => ∀ i < n, p i = false := by
  induction n with
  | zero => simp
  | succ n ih =>
    rw [List.range_succ, List.find?_append]
    cases h : (List.range n).find? p with
    | some i =>
      rw [h] at ih
      simpa [Option.or] using ⟨Nat.lt_succ_of_lt ih.1, ih.2⟩
    | none =>
      rw [h] at ih
      simp only [Option.or]
      cases hp : (List.find? p [n]) with
      | some x =>
        simp only [List.find?] at hp
        by_cases hn : p n = true
        · simp [hn] at hp
          subst hp
          exact ⟨Nat.lt_succ_self n, hn, fun j hj => ih j hj⟩
        · simp [Bool.not_eq_true] at hn
          simp [hn] at hp
      | none =>
        simp only [List.find?] at hp
        intro i hi
        rcases Nat.lt_succ_iff_lt_or_eq.mp hi with h' | h'
        · exact ih i h'
        · subst h'
          by_cases hn : p i = true
          · simp [hn] at hp
          · simpa [Bool.not_eq_true] using hn

theorem isReady_iff (g : SoS_DAG) (i : Nat) : g.isReady i = true ↔ readySpec g i := by
  unfold SoS_DAG.isReady readySpec
  rw [Bool.and_eq_true, decide_eq_true_eq, List.all_eq_true]
  constructor
  · rintro ⟨h0, h⟩
    refine ⟨h0, fun e he hei => ?_⟩
    have hm : e ∈ g.edges.filter (fun e => decide (e.2 = i)) :=
      List.mem_filter.mpr ⟨he, by simp [hei]⟩
    simpa using h e hm
  · rintro ⟨h0, h⟩
    refine ⟨h0, fun e he => ?_⟩
    rcases List.mem_filter.mp he with ⟨he1, he2⟩
    simpa using h e he1 (by simpa using he2)

/-! ## Claim theorems for the DAG -/

/-- C1: `depends_on(self, other)` is true iff `self.status` is not
`completed` and at least one of (E1) the context-change rule, (E2) the
undetermined-input rule with both indexes non-null and
`other.index = self.index - 1`, or (E3) the produce/consume rule holds. -/
theorem claim_C1_depends_on_iff (self other : SoS_Node) :
    self.depends_on other = true ↔
      self._status ≠ some "completed" ∧
      ((other._change_context = true ∧ ∃ a b, other._node_index = some a ∧
          self._node_index = some b ∧ a < b)
       ∨ (self._input_targets = Targets.undetermined ∧ ∃ a b,
          other._node_index = some a ∧ self._node_index = some b ∧ a = b - 1)
       ∨ (∃ outs, other._output_targets = Targets.known outs ∧
          ((∃ ins, self._input_targets = Targets.known ins ∧ ∃ x, x ∈ ins ∧ x ∈ outs)
           ∨ (∃ x, x ∈ self._depends_targets ∧ x ∈ outs)))) := by
  rcases self with ⟨u1, id1, ix1, in1, dp1, out1, cc1, st1⟩
  rcases other with ⟨u2, id2, ix2, in2, dp2, out2, cc2, st2⟩
  simp only [SoS_Node.depends_on, sharesElement, Targets.isUndetermined]
  cases ix1 <;> cases ix2 <;> cases in1 <;> cases out2 <;> cases cc2 <;>
    simp_all [List.any_eq_true]

/-- C2: `find_executable` returns the first node (in insertion order)
whose status is unset and whose in-edge predecessors are all completed;
when no such node exists it raises `RuntimeError` if some node is not
completed, and returns `None` when every node is completed. -/
theorem claim_C2_find_executable_spec (g : SoS_DAG) :
    match g.find_executable with
    | .ok (some i) => i < g.nodes.length ∧ readySpec g i ∧ ∀ j < i, ¬ readySpec g j
    | .error _ => (∀ i < g.nodes.length, ¬ readySpec g i) ∧
        ∃ i < g.nodes.length, g.statusAt i ≠ some "completed"
    | .ok none => ∀ i < g.nodes.length, g.statusAt i = some "completed" := by
  unfold SoS_DAG.find_executable
  have h1 := range_find?_spec (fun i => g.isReady i) g.nodes.length
  cases hf : (List.range g.nodes.length).find? (fun i => g.isReady i) with
  | some i =>
    rw [hf] at h1
    exact ⟨h1.1, (isReady_iff g i).mp h1.2.1,
      fun j hj hr => by
        have hfalse := h1.2.2 j hj
        have htrue := (isReady_iff g j).mpr hr
        simp [htrue] at hfalse⟩
  | none =>
    rw [hf] at h1
    have h2 := range_find?_spec (fun i => !(g.statusAt i = some "completed")) g.nodes.length
    cases hg : (List.range g.nodes.length).find?
        (fun i => !(g.statusAt i = some "completed")) with
    | some i =>
      rw [hg] at h2
      refine ⟨fun i hi hr => ?_, ⟨i, h2.1, by simpa using h2.2.1⟩⟩
      have := h1 i hi
      rw [← isReady_iff g i] at hr
      simp [hr] at this
    | none =>
      rw [hg] at h2
      intro i hi
      have := h2 i hi
      simpa using this

/-- C10: in `SoS_Node.__init__`, a `None` `input_targets` or
`output_targets` becomes the `Undetermined` sentinel while a `None`
`depends_targets` becomes the empty list; non-`None` target lists are
copied at construction, so mutating the caller's list afterwards leaves
the node unchanged. -/
theorem claim_C10_node_init (h : Heap) (uuid : Nat) (node_name : String)
    (node_index : Option Int) (ri rd ro r : Nat) (v : List String) (cc : Bool) :
    (SoS_Node.init h uuid node_name node_index none none none cc)._input_targets
        = Targets.undetermined ∧
    (SoS_Node.init h uuid node_name node_index none none none cc)._output_targets
        = Targets.undetermined ∧
    (SoS_Node.init h uuid node_name node_index none none none cc)._depends_targets
        = [] ∧
    (constructThenMutate h uuid node_name node_index ri rd ro cc r v).1._input_targets
        = Targets.known (h ri) ∧
    (constructThenMutate h uuid node_name node_index ri rd ro cc r v).1._depends_targets
        = h rd ∧
    (constructThenMutate h uuid node_name node_index ri rd ro cc r v).1._output_targets
        = Targets.known (h ro) := by
  refine ⟨rfl, rfl, rfl, rfl, rfl, rfl⟩

/-! ## `pysos/sos_script.py`: character classes and Python string helpers

Scripts are ASCII; Python's `str.strip`/`\s` whitespace set is embedded
for the characters that can occur in a line. -/

def isSpaceChar (c : Char) : Bool :=
  c = ' ' || c = '\t' || c = '\n' || c = '\r' || c = '\x0b' || c = '\x0c'

def isDigitChar (c : Char) : Bool := c.isDigit

/-- Python `\w` over ASCII. -/
def isWordChar (c : Char) : Bool := c.isAlpha || c.isDigit || c = '_'

/-- Python `str.strip()` on a character list. -/
def pyStripL (l : List Char) : List Char :=
  ((l.dropWhile isSpaceChar).reverse.dropWhile isSpaceChar).reverse

def pyStrip (s : String) : String := String.mk (pyStripL s.toList)

/-- Replace the final element of a list (Python `lst[-1] = f lst[-1]`);
the empty case cannot arise at the call sites. -/
def updateLast {α : Type} (f : α → α) : List α → List α
  | [] => []
  | [a] => [f a]
  | a :: rest => a :: updateLast f rest

/-! ## `pysos/sos_script.py`: errors -/

/-- `ParsingError` (sos_script.py:41-52).  `append` records a
`(lineno, line)` pair in `errors` and folds the message into the
aggregate `message` string. -/
structure ParsingErrorState where
  filename : String
  message : String
  errors : List (Nat × String)
deriving DecidableEq, Repr

def ParsingErrorState.init (filename : String) : ParsingErrorState :=
  { filename := filename
    message := "File contains parsing errors: " ++ filename
    errors := [] }

/-- Python `'%2d' % n`. -/
def fmtLineno (n : Nat) : String :=
  if n < 10 then " " ++ toString n else toString n

def ParsingErrorState.append (st : ParsingErrorState) (lineno : Nat)
    (line msg : String) : ParsingErrorState :=
  { st with
    errors := st.errors ++ [(lineno, line)]
    message := st.message ++ "\n\t[line " ++ fmtLineno lineno ++ "]: " ++
      line ++ "\n" ++ msg }

/-! ## `pysos/sos_script.py`: `SoS_Step` -/

structure SoS_Step where
  names : List (String × Option String)
  options : List (String × Option String)
  comment : String
  parameters : List (String × String × String)
  assignments : List (String × String)
  directives : List (String × String)
  statements : List String
  is_global : Bool
  is_parameters : Bool
  last_line : Option Char
deriving DecidableEq, Repr

def SoS_Step.mkStep (names : List (String × Option String))
    (options : List (String × Option String))
    (is_global is_parameters : Bool) : SoS_Step :=
  { names := names, options := options, comment := "", parameters := [],
    assignments := [], directives := [], statements := [],
    is_global := is_global, is_parameters := is_parameters, last_line := none }

def SoS_Step.empty (s : SoS_Step) : Bool := s.last_line = none

/-- `line.lstrip('#').strip()` -/
def commentText (line : String) : String :=
  String.mk (pyStripL (line.toList.dropWhile (· = '#')))

def SoS_Step.add_comment (s : SoS_Step) (line : String) : SoS_Step :=
  { s with comment := s.comment ++ " " ++ commentText line }

/-- `add_assignment` with `key = None` (continuation). -/
def SoS_Step.extendAssignment (s : SoS_Step) (value : String) : SoS_Step :=
  if s.is_parameters then
    { s with parameters := updateLast (fun p => (p.1, p.2.1 ++ value, p.2.2)) s.parameters }
  else
    { s with assignments := updateLast (fun p => (p.1, p.2 ++ value)) s.assignments }

/-- `add_assignment` with a key. -/
def SoS_Step.add_assignment (s : SoS_Step) (key value : String) : SoS_Step :=
  if s.is_parameters then
    { s with parameters := s.parameters ++ [(key, value, s.comment)], comment := "" }
  else
    { s with assignments := s.assignments ++ [(key, value)], last_line := some '=' }

/-- `add_directive` with `key = None` (continuation). -/
def SoS_Step.extendDirective (s : SoS_Step) (value : String) : SoS_Step :=
  { s with directives := updateLast (fun p => (p.1, p.2 ++ value)) s.directives }

def SoS_Step.add_directive (s : SoS_Step) (key value : String) : SoS_Step :=
  { s with directives := s.directives ++ [(key, value)], last_line := some ':' }

def SoS_Step.add_statement (s : SoS_Step) (line : String) : SoS_Step :=
  { s with statements := s.statements ++ [line], last_line := some '!' }

def SoS_Step.extend (s : SoS_Step) (line : String) : SoS_Step :=
  if s.last_line = some ':' then s.extendDirective line
  else if s.last_line = some '=' then s.extendAssignment line
  else s.add_statement line

/-! ## `pysos/sos_script.py`: `ExprStack`

The Python `compile()` completeness judge is external (the embedded
expression evaluator of the spec, §6); it is abstracted as an oracle. -/

structure Oracle where
  evalOK : String → Bool
  execOK : String → Bool

structure ExprStack where
  category : Option String
  values : List String
deriving DecidableEq, Repr

def ExprStack.clearS : ExprStack := ⟨none, []⟩

/-- `ExprStack.set`; the guard raising `ValueError` on a non-empty stack
never fires at the call sites (each is preceded by `clear`). -/
def ExprStack.setS (e cat : String) : ExprStack := ⟨some cat, [e]⟩

def ExprStack.pushS (st : ExprStack) (v : String) : ExprStack :=
  { st with values := st.values ++ [v] }

/-- Python `s.endswith(',')`. -/
def endsWithComma (s : String) : Bool :=
  match s.toList.getLast? with
  | some c => c = ','
  | none => false

/-- `ExprStack.isValid` (sos_script.py:215-239). -/
def ExprStack.isValid (st : ExprStack) (o : Oracle) : Bool :=
  if st.values = [] then true
  else match st.category with
    | some c =>
      if c = "expression" then o.evalOK (String.join st.values)
      else if c = "directive" then
        if endsWithComma (pyStrip (st.values.getLast?.getD "")) then false
        else o.evalOK ("func(" ++ String.join st.values ++ ")")
      else if c = "statements" then o.execOK (String.join st.values)
      else false
    | none => false

/-! ## `pysos/sos_script.py`: `SoS_Workflow` -/

structure SoS_Workflow where
  sections : List SoS_Step
  global_section : Option SoS_Step
  parameters_section : Option SoS_Step
  auxillary_sections : List SoS_Step
deriving DecidableEq, Repr

/-- Value of a digit string, as Python `int` on the parser-produced
index strings (which are always nonempty digit runs). -/
def digitsToNat (l : List Char) : Nat :=
  l.foldl (fun acc c => 10 * acc + (c.toNat - '0'.toNat)) 0

/-- Sort key `int(x.names[0][1])` of `SoS_Workflow.__init__`. -/
def sectionSortKey (s : SoS_Step) : Nat :=
  match s.names.head? with
  | some (_, some i) => digitsToNat i.toList
  | _ => 0

/-- Body of the inner `for name, index in section.names` loop of
`SoS_Workflow.__init__` (sos_script.py:156-165). -/
def workflowNameStep (workflow_name : String) (sec : SoS_Step)
    (acc : SoS_Workflow) (p : String × Option String) : SoS_Workflow :=
  match p.2 with
  | none => { acc with auxillary_sections := acc.auxillary_sections ++ [sec] }
  | some i =>
    if p.1.toList.contains '*' then
      { acc with sections := acc.sections ++
          [{ sec with names := [(workflow_name, some i)] }] }
    else if p.1 = workflow_name then
      { acc with sections := acc.sections ++
          [{ sec with names := [(workflow_name, some i)] }] }
    else acc

/-- Body of the per-section loop of `SoS_Workflow.__init__`
(sos_script.py:149-165). -/
def workflowStep (workflow_name : String) (acc : SoS_Workflow)
    (sec : SoS_Step) : SoS_Workflow :=
  if sec.is_global then { acc with global_section := some sec }
  else if sec.is_parameters then { acc with parameters_section := some sec }
  else sec.names.foldl (workflowNameStep workflow_name sec) acc

def emptyWorkflow : SoS_Workflow := ⟨[], none, none, []⟩

/-- `SoS_Workflow.__init__` (sos_script.py:143-167): collect matching
sections, then `sections.sort(key=lambda x: int(x.names[0][1]))`
(a stable ascending sort). -/
def SoS_Workflow.init (workflow_name : String) (secs : List SoS_Step) : SoS_Workflow :=
  let w := secs.foldl (workflowStep workflow_name) emptyWorkflow
  let sorted := List.insertionSort (fun a b => sectionSortKey a ≤ sectionSortKey b) w.sections
  { w with sections := sorted }

/-- The spec's wildcard matching ("contains a wildcard that matches it"),
modelled from the spec's words for the refinement comparison in C3:
`*` matches any character sequence, other characters match literally. -/
def globMatchF : Nat → List Char → List Char → Bool
  | 0, _, _ => false
  | _ + 1, [], cs => cs.isEmpty
  | f + 1, '*' :: ps, [] => globMatchF f ps []
  | f + 1, '*' :: ps, c :: cs =>
      globMatchF f ps (c :: cs) || globMatchF f ('*' :: ps) cs
  | _ + 1, _ :: _, [] => false
  | f + 1, p :: ps, c :: cs => p = c && globMatchF f ps cs

def globMatch (ps cs : List Char) : Bool :=
  globMatchF (ps.length + cs.length + 1) ps cs

/-! ## Lemmas about workflow materialisation -/

/-- The section (if any) a single `(name, index)` pair contributes to
`self.sections`. -/
def contribOfPair (workflow_name : String) (sec : SoS_Step)
    (p : String × Option String) : Option SoS_Step :=
  match p.2 with
  | none => none
  | some i =>
    if p.1.toList.contains '*' || p.1 = workflow_name then
      some { sec with names := [(workflow_name, some i)] }
    else none

/-- All sections one parsed section contributes to `self.sections`. -/
def sectionContrib (workflow_name : String) (sec : SoS_Step) : List SoS_Step :=
  if sec.is_global || sec.is_parameters then []
  else sec.names.filterMap (contribOfPair workflow_name sec)

theorem workflowNameStep_sections (wn : String) (sec : SoS_Step) :
    ∀ (names : List (String × Option String)) (acc : SoS_Workflow),
      (names.foldl (workflowNameStep wn sec) acc).sections =
        acc.sections ++ names.filterMap (contribOfPair wn sec) := by
  intro names
  induction names with
  | nil => intro acc; simp
  | cons p rest ih =>
    intro acc
    rw [List.foldl_cons, ih, List.filterMap_cons]
    rcases p with ⟨n, i⟩
    cases i with
    | none => simp [workflowNameStep, contribOfPair]
    | some iv =>
      by_cases hstar : '*' ∈ n.data
      · simp [workflowNameStep, contribOfPair, String.toList, hstar]
      · by_cases heq : n = wn
        · simp [workflowNameStep, contribOfPair, String.toList, hstar, heq]
        · simp [workflowNameStep, contribOfPair, String.toList, hstar, heq]

theorem workflowStep_sections (wn : String) (acc : SoS_Workflow) (sec : SoS_Step) :
    (workflowStep wn acc sec).sections = acc.sections ++ sectionContrib wn sec := by
  unfold workflowStep sectionContrib
  cases hg : sec.is_global with
  | true => simp
  | false =>
    cases hp : sec.is_parameters with
    | true => simp
    | false => simp [workflowNameStep_sections]

theorem foldl_workflowStep_sections (wn : String) :
    ∀ (secs : List SoS_Step) (acc : SoS_Workflow),
      ((secs.foldl (workflowStep wn) acc).sections) =
        acc.sections ++ (secs.map (sectionContrib wn)).flatten := by
  intro secs
  induction secs with
  | nil => intro acc; simp
  | cons sec rest ih =>
    intro acc
    rw [List.foldl_cons, ih, workflowStep_sections]
    simp

instance : IsTotal SoS_Step (fun a b => sectionSortKey a ≤ sectionSortKey b) :=
  ⟨fun _ _ => Nat.le_total _ _⟩

instance : IsTrans SoS_Step (fun a b => sectionSortKey a ≤ sectionSortKey b) :=
  ⟨fun _ _ _ => Nat.le_trans⟩

/-! ## Claim theorems for workflow materialisation -/

/-- C3 (amended): an indexed section is included in the workflow named
`workflow_name` iff its name contains the character `*` (regardless of
whether the wildcard pattern matches the workflow name) or equals the
workflow name; each included copy has its names rewritten to the single
pair `(workflow_name, index)`. -/
theorem claim_C3_workflow_membership (wn : String) (secs : List SoS_Step)
    (s : SoS_Step) :
    s ∈ (SoS_Workflow.init wn secs).sections ↔
      ∃ sec ∈ secs, sec.is_global = false ∧ sec.is_parameters = false ∧
        ∃ n i, (n, some i) ∈ sec.names ∧ ('*' ∈ n.toList ∨ n = wn) ∧
          s = { sec with names := [(wn, some i)] } := by
  unfold SoS_Workflow.init
  simp only [List.mem_insertionSort]
  rw [foldl_workflowStep_sections]
  simp only [emptyWorkflow, List.nil_append, List.mem_flatten, List.mem_map]
  constructor
  · rintro ⟨l, ⟨sec, hsec, rfl⟩, hs⟩
    unfold sectionContrib at hs
    by_cases hgp : (sec.is_global || sec.is_parameters) = true
    · simp [hgp] at hs
    · rw [if_neg (by simp [hgp])] at hs
      rcases List.mem_filterMap.mp hs with ⟨p, hp, hcp⟩
      rcases p with ⟨n, i⟩
      cases i with
      | none => simp [contribOfPair] at hcp
      | some iv =>
        simp only [contribOfPair] at hcp
        by_cases hcond : (n.toList.contains '*' || n = wn) = true
        · rw [if_pos hcond] at hcp
          have hgp2 : (sec.is_global || sec.is_parameters) = false := by
            simpa using hgp
          rcases Bool.or_eq_false_iff.mp hgp2 with ⟨hgf, hpf⟩
          refine ⟨sec, hsec, hgf, hpf, n, iv, hp, ?_, by
            cases hcp; rfl⟩
          simpa using hcond
        · rw [if_neg hcond] at hcp
          exact absurd hcp (by simp)
  · rintro ⟨sec, hsec, hgf, hpf, n, iv, hp, hcond, rfl⟩
    refine ⟨sectionContrib wn sec, ⟨sec, hsec, rfl⟩, ?_⟩
    unfold sectionContrib
    rw [if_neg (by simp [hgf, hpf])]
    refine List.mem_filterMap.mpr ⟨(n, some iv), hp, ?_⟩
    simp only [contribOfPair]
    rw [if_pos (by simpa using hcond)]

/-- A section whose name contains `*` but, read as a glob pattern, does
not match the workflow name `default`. -/
def starSection : SoS_Step := SoS_Step.mkStep [("x*", some "0")] [] false false

/-- C3 counterexample: the section named `x*` is included in workflow
`default` by the code even though `x*` neither equals `default` nor is a
wildcard pattern matching `default`, contradicting the claim's "contains
a wildcard that matches W". -/
theorem claim_C3_counterexample :
    (SoS_Workflow.init "default" [starSection]).sections.length = 1 ∧
    globMatch "x*".toList "default".toList = false ∧
    "x*" ≠ "default" := by
  refine ⟨by decide, by decide, by decide⟩

/-- C4 (amended): the included sections are sorted ascending by integer
index, and sections with equal integer indexes are all kept (a stable
sort); no duplicate-index error is raised. -/
theorem claim_C4_sorted_and_kept (wn : String) (secs : List SoS_Step) :
    List.Sorted (fun a b => sectionSortKey a ≤ sectionSortKey b)
      (SoS_Workflow.init wn secs).sections ∧
    (SoS_Workflow.init wn secs).sections.Perm
      ((secs.foldl (workflowStep wn) emptyWorkflow).sections) := by
  unfold SoS_Workflow.init
  exact ⟨List.sorted_insertionSort _ _, List.perm_insertionSort _ _⟩

def dupStepA : SoS_Step := SoS_Step.mkStep [("default", some "1")] [] false false

def dupStepB : SoS_Step :=
  { SoS_Step.mkStep [("default", some "1")] [] false false with statements := ["b\n"] }

/-- C4 counterexample: two included sections with the same integer index
`1` are both kept, in source order, instead of being rejected with a
duplicate-section error. -/
theorem claim_C4_counterexample :
    (SoS_Workflow.init "default" [dupStepA, dupStepB]).sections = [dupStepA, dupStepB] ∧
    sectionSortKey dupStepA = sectionSortKey dupStepB ∧
    dupStepA ≠ dupStepB := by
  refine ⟨by decide, by decide, by decide⟩

/-- C8: for a `directive` stack with at least one fragment, `isValid`
returns false when the stripped last fragment ends with a comma, and
otherwise returns exactly the compile-check of `func(<joined body>)`. -/
theorem claim_C8_isValid_directive (o : Oracle) (st : ExprStack)
    (hc : st.category = some "directive") (hv : ¬ st.values = []) :
    (endsWithComma (pyStrip (st.values.getLast?.getD "")) = true → st.isValid o = false) ∧
    (endsWithComma (pyStrip (st.values.getLast?.getD "")) = false →
      (st.isValid o = true ↔ o.evalOK ("func(" ++ String.join st.values ++ ")") = true)) := by
  unfold ExprStack.isValid
  rw [hc, if_neg hv]
  have h1 : ¬ (("directive" : String) = "expression") := by decide
  constructor
  · intro hcomma
    simp [h1, hcomma]
  · intro hcomma
    simp [h1, hcomma]

def oracleTrue : Oracle := ⟨fun _ => true, fun _ => true⟩

/-! ## The regular expressions of `SoS_Script_Parser` (sos_script.py:249-314)

Each compiled pattern is embedded as an executable matcher over the
line's characters, following the backtracking behaviour of `re`.
The patterns are deterministic enough that greedy/lazy repetition
resolves to explicit `takeWhile`/`dropWhile` scans plus, for
`SECTION_NAME`, an ordered candidate search. -/

def isSectionNameChar (c : Char) : Bool :=
  isWordChar c || c = ',' || c = '*' || isSpaceChar c

/-- `SECTION_HEADER` = `\[([\d\w_,*\s]+)(:\s*([^]]*))?\]`, used with
`re.match` (prefix match, trailing text ignored).  Returns the raw
`section_name` and `section_option` groups. -/
def matchSectionHeader (line : String) : Option (String × Option String) :=
  match line.toList with
  | '[' :: rest =>
    let nameRun := rest.takeWhile isSectionNameChar
    let rest2 := rest.dropWhile isSectionNameChar
    if nameRun.isEmpty then none
    else match rest2 with
      | ']' :: _ => some (String.mk nameRun, none)
      | ':' :: r3 =>
        let r4 := r3.dropWhile isSpaceChar
        let opt := r4.takeWhile (fun c => !(c = ']'))
        (match r4.dropWhile (fun c => !(c = ']')) with
         | ']' :: _ => some (String.mk nameRun, some (String.mk opt))
         | _ => none)
      | _ => none
  | _ => none

/-- First character of the `name` group of `SECTION_NAME`: `[a-zA-Z*]`. -/
def isNameStartChar (c : Char) : Bool := c.isAlpha || c = '*'

/-- Middle characters: `[\w\d_*]`. -/
def isNameMidChar (c : Char) : Bool := isWordChar c || c = '*'

/-- Last character: `[a-zA-Z\d*]` (underscore excluded). -/
def isNameEndChar (c : Char) : Bool := c.isAlpha || c.isDigit || c = '*'

/-- After the name: `(_(?P<index>\d+))?\s*$`.  Returns the `index` group
when the whole tail matches, `none` when the tail cannot match at all. -/
def tailIndexMatch (rest : List Char) : Option (Option String) :=
  match rest with
  | '_' :: r =>
    let ds := r.takeWhile isDigitChar
    if !ds.isEmpty && (r.dropWhile isDigitChar).all isSpaceChar then
      some (some (String.mk ds))
    else none
  | _ => if rest.all isSpaceChar then some none else none

/-- Does a candidate `name` group conform to
`[a-zA-Z*]([\w\d_*]*?[a-zA-Z\d*])?`? -/
def nameCandOK (cand : List Char) : Bool :=
  match cand with
  | [] => false
  | [c] => isNameStartChar c
  | c :: rest => isNameStartChar c && rest.dropLast.all isNameMidChar &&
      (match rest.getLast? with
       | some d => isNameEndChar d
       | none => true)

/-- Try the name candidate of length `k` followed by the tail pattern. -/
def tryNameK (cs1 : List Char) (k : Nat) : Option (String × Option String) :=
  let cand := cs1.take k
  if cand.length = k && nameCandOK cand then
    match tailIndexMatch (cs1.drop k) with
    | some idx => some (String.mk cand, idx)
    | none => none
  else none

/-- `SECTION_NAME` on one comma-token of a header.  Returns the groups
`(name, index, default_index)`.  The lazy inner repetition of the name
makes the regex try name lengths 2,3,… in order and length 1 last;
when the name group cannot participate in a match, a bare digit run
becomes `default_index`. -/
def matchSectionName (tok : String) :
    Option (Option String × Option String × Option String) :=
  let cs1 := tok.toList.dropWhile isSpaceChar
  let tryDefault : Option (Option String × Option String × Option String) :=
    let ds := cs1.takeWhile isDigitChar
    if !ds.isEmpty && (cs1.dropWhile isDigitChar).all isSpaceChar then
      some (none, none, some (String.mk ds))
    else none
  match cs1 with
  | [] => none
  | c0 :: _ =>
    if isNameStartChar c0 then
      match ((List.range (cs1.length - 1)).filterMap
          (fun j => tryNameK cs1 (j + 2))).head? with
      | some (n, i) => some (some n, i, none)
      | none =>
        match tryNameK cs1 1 with
        | some (n, i) => some (some n, i, none)
        | none => tryDefault
    else tryDefault

def sectionOptionKeywords : List String :=
  ["input_alias", "output_alias", "nonconcurrent", "skip", "blocking", "sigil", "target"]

/-- `SECTION_OPTION` on one comma-token of the options part. -/
def matchSectionOption (tok : String) : Option (String × Option String) :=
  let cs1 := tok.toList.dropWhile isSpaceChar
  match sectionOptionKeywords.find? (fun kw => kw.toList.isPrefixOf cs1) with
  | some kw =>
    let rest := cs1.drop kw.length
    (match rest.dropWhile isSpaceChar with
     | '=' :: r3 =>
       let v := r3.dropWhile isSpaceChar
       if v.isEmpty then
         -- `.+` needs at least one character; when `r3` is all spaces the
         -- greedy `\s*` backs off one step and the value is the last space
         (match r3.getLast? with
          | some c => some (kw, some (String.mk [c]))
          | none => none)
       else some (kw, some (String.mk v))
     | _ => if rest.all isSpaceChar then some (kw, none) else none)
  | none => none

/-- `FORMAT_LINE` = `^\#fileformat\s*=\s*(?P<format_name>.*)\s*$`. -/
def matchFormatLine (line : String) : Option String :=
  let pre := "#fileformat".toList
  let cs := line.toList
  if pre.isPrefixOf cs then
    match (cs.drop pre.length).dropWhile isSpaceChar with
    | '=' :: r2 => some (String.mk (r2.dropWhile isSpaceChar))
    | _ => none
  else none

/-- `FORMAT_VERSION` = `^(?P<format_name>[a-zA-Z]+)(?P<format_version>[\d\.]+)\s*$`. -/
def matchFormatVersion (s : String) : Option String :=
  let cs := s.toList
  let ls := cs.takeWhile Char.isAlpha
  let r := cs.dropWhile Char.isAlpha
  let ds := r.takeWhile (fun c => c.isDigit || c = '.')
  if !ls.isEmpty && !ds.isEmpty &&
      (r.dropWhile (fun c => c.isDigit || c = '.')).all isSpaceChar then
    some (String.mk ds)
  else none

/-- `ASSIGNMENT` = `^(?P<var_name>[\w_][\d\w_]*)\s*=\s*(?P<var_value>.*)`. -/
def matchAssignment (line : String) : Option (String × String) :=
  let cs := line.toList
  let nm := cs.takeWhile isWordChar
  if nm.isEmpty then none
  else
    match (cs.dropWhile isWordChar).dropWhile isSpaceChar with
    | '=' :: r2 => some (String.mk nm, String.mk (r2.dropWhile isSpaceChar))
    | _ => none

def directiveKeywords : List String := ["input", "output", "depends"]

/-- `DIRECTIVE` = `^(input|output|depends)\s*:\s*(?P<directive_value>.*)`. -/
def matchDirective (line : String) : Option (String × String) :=
  let cs := line.toList
  match directiveKeywords.find? (fun kw => kw.toList.isPrefixOf cs) with
  | some kw =>
    (match (cs.drop kw.length).dropWhile isSpaceChar with
     | ':' :: r2 => some (kw, String.mk (r2.dropWhile isSpaceChar))
     | _ => none)
  | none => none

/-- Python `tok.split(',')`. -/
def splitOnComma : List Char → List (List Char)
  | [] => [[]]
  | c :: rest =>
    let r := splitOnComma rest
    if c = ',' then [] :: r
    else match r with
      | h :: t => (c :: h) :: t
      | [] => [[c]]

/-- Python `format_name.upper().startswith('SOS')`. -/
def upperStartsSOS (s : String) : Bool :=
  "SOS".toList.isPrefixOf (s.toList.map Char.toUpper)

/-! ## `SoS_Script_Parser._read` (sos_script.py:344-538)

The loop state.  `cursect` in the source is always the last element of
`self.sections` (it is only ever assigned `self.sections[-1]`), so it is
embedded as a flag plus updates to that last element. -/

structure ParserState where
  sections : List SoS_Step
  format_version : String
  workflow_descriptions : List (List String)
  comment_block : Nat
  hasCursect : Bool
  stck : ExprStack
  perrors : ParsingErrorState
deriving Repr

def ParserState.initState (filename : String) : ParserState :=
  ⟨[], "1.0", [], 1, false, ExprStack.clearS, ParsingErrorState.init filename⟩

/-- The current section (meaningful only when `hasCursect`). -/
def ParserState.cur (st : ParserState) : SoS_Step :=
  (st.sections.getLast?).getD (SoS_Step.mkStep [] [] false false)

def ParserState.withCur (st : ParserState) (f : SoS_Step → SoS_Step) : ParserState :=
  { st with sections := updateLast f st.sections }

def ParserState.addError (st : ParserState) (lineno : Nat) (line msg : String) :
    ParserState :=
  { st with perrors := st.perrors.append lineno line msg }

/-- Format-header handling (sos_script.py:369-378). -/
def handleFormatName (st : ParserState) (lineno : Nat) (line format_name : String) :
    ParserState :=
  let st1 :=
    if !(upperStartsSOS format_name) then
      st.addError lineno line
        ("Unrecognized file format name " ++ format_name ++ ". Expecting SOS.")
    else st
  match matchFormatVersion format_name with
  | some v => { st1 with format_version := v }
  | none => st1.addError lineno line
      ("Unrecognized file format version in " ++ format_name ++ ".")

/-- Flush check on the expression stack done before committing a new
header/assignment/directive (sos_script.py:421-423 and friends). -/
def flushStack (o : Oracle) (st : ParserState) (lineno : Nat) : ParserState :=
  let st :=
    if !(st.stck.isValid o) then
      st.addError (lineno - 1) (String.join st.stck.values)
        ("Invalid " ++ (st.stck.category.getD ""))
    else st
  { st with stck := ExprStack.clearS }

/-- Step-name accumulation for one comma-token of a section header
(sos_script.py:429-438). -/
def stepNamesOfToken (acc : List (String × Option String) × ParserState)
    (lineno : Nat) (line : String) (tok : String) :
    List (String × Option String) × ParserState :=
  match matchSectionName tok with
  | some (n, i, di) =>
    (acc.1 ++
      (match n with | some nv => [(nv, i)] | none => []) ++
      (match di with | some dv => [("default", some dv)] | none => []),
     acc.2)
  | none => (acc.1, acc.2.addError (lineno - 1) line "Invalid section name")

/-- Section-header handling (sos_script.py:418-448). -/
def handleSectionHeader (o : Oracle) (st : ParserState) (lineno : Nat)
    (line secName : String) (secOpt : Option String) : ParserState :=
  let st := flushStack o st lineno
  let tokens := (splitOnComma (pyStrip secName).toList).map String.mk
  let r1 := tokens.foldl (fun acc tok => stepNamesOfToken acc lineno line tok) ([], st)
  let step_names := r1.1
  let st := r1.2
  let r2 : List (String × Option String) × ParserState :=
    match secOpt with
    | none => ([], st)
    | some so => (splitOnComma so.toList).map String.mk |>.foldl
        (fun acc tok =>
          match matchSectionOption tok with
          | some nv => (acc.1 ++ [nv], acc.2)
          | none => (acc.1, acc.2.addError (lineno - 1) line "Invalid section option"))
        ([], st)
  let step_options := r2.1
  let st := r2.2
  let isParams : Bool := !step_names.isEmpty &&
    ((step_names.head?.map Prod.fst).getD "") = "parameters"
  { st with
    sections := st.sections ++ [SoS_Step.mkStep step_names step_options false isParams]
    hasCursect := true }

/-- Assignment-line handling (sos_script.py:451-477). -/
def handleAssignment (o : Oracle) (st : ParserState) (lineno : Nat)
    (line var_name var_value : String) : ParserState :=
  let st :=
    if !st.hasCursect then
      { st with
          sections := st.sections ++ [SoS_Step.mkStep [] [] true false]
          hasCursect := true }
    else st
  let st := flushStack o st lineno
  if st.cur.empty || st.cur.last_line = some '=' then
    let st := st.withCur (fun c => c.add_assignment var_name var_value)
    { st with stck := ExprStack.setS var_value "expression" }
  else if st.cur.last_line = some ':' then
    let st := st.withCur (fun c => c.add_statement (var_name ++ " = " ++ var_value ++ "\n"))
    { st with stck := ExprStack.setS (var_name ++ " = " ++ var_value ++ "\n") "statements" }
  else
    let st := st.withCur (fun c => c.extend (var_name ++ " = " ++ var_value ++ "\n"))
    { st with stck := ExprStack.setS (var_name ++ " = " ++ var_value ++ "\n") "statements" }

/-- Directive-line handling (sos_script.py:480-500). -/
def handleDirective (o : Oracle) (st : ParserState) (lineno : Nat)
    (line directive_name directive_value : String) : ParserState :=
  let st := flushStack o st lineno
  if !st.hasCursect then
    st.addError lineno line
      ("Directive " ++ directive_name ++ " is not allowed out side of a SoS step")
  else if st.cur.is_parameters then
    st.addError lineno line
      ("Directive " ++ directive_name ++ " is not allowed in parameters section")
  else if !st.cur.empty && st.cur.last_line = some '!' then
    st.addError lineno line
      ("Directive " ++ directive_name ++ " should be be defined before step action")
  else
    let st := st.withCur (fun c => c.add_directive directive_name directive_value)
    { st with stck := ExprStack.setS directive_value "directive" }

/-- One iteration of the `for lineno, line in enumerate(fp, start=1)`
loop of `_read` (sos_script.py:359-523). -/
def handleLine (o : Oracle) (st : ParserState) (lineno : Nat) (line : String) :
    ParserState :=
  let cs := line.toList
  if cs.head? = some '#' then
    if !st.hasCursect then
      if st.comment_block = 1 then
        match matchFormatLine line with
        | some fn => handleFormatName st lineno line fn
        | none => st
      else if 1 < st.comment_block then
        { st with workflow_descriptions :=
            updateLast (fun l => l ++ [line]) st.workflow_descriptions }
      else st
    else
      if st.cur.is_parameters then st.withCur (fun c => c.add_comment line)
      else if st.comment_block = 1 && st.cur.empty then
        st.withCur (fun c => c.add_comment line)
      else st
  else if cs.all isSpaceChar then
    if !st.hasCursect then
      { st with
          comment_block := st.comment_block + 1
          workflow_descriptions := st.workflow_descriptions ++ [[]] }
    else if !(st.cur.comment = "") then { st with comment_block := st.comment_block + 1 }
    else st
  else if (match cs.head? with | some c => isSpaceChar c | none => false) &&
      st.hasCursect && !st.cur.empty then
    -- the inner `if line.strip():` always holds: blank lines are caught above
    let st := st.withCur (fun c => c.extend line)
    { st with stck := st.stck.pushS line }
  else if !(st.stck.isValid o) then
    let st := { st with stck := st.stck.pushS line }
    st.withCur (fun c => c.extend line)
  else
    match matchSectionHeader line with
    | some (sn, so) => handleSectionHeader o st lineno line sn so
    | none =>
      match matchAssignment line with
      | some (vn, vv) => handleAssignment o st lineno line vn vv
      | none =>
        match matchDirective line with
        | some (dn, dv) => handleDirective o st lineno line dn dv
        | none =>
          if !st.hasCursect || st.cur.is_global then
            st.addError lineno line
              "Only variable assignment is allowed before section definitions."
          else if st.cur.is_parameters then
            st.addError lineno line
              "Action statement is not allowed in parameters section"
          else if st.cur.empty || !(st.cur.last_line = some '!') then
            let st := st.withCur (fun c => c.add_statement line)
            { st with stck := ExprStack.setS line "statements" }
          else
            let st := st.withCur (fun c => c.extend line)
            { st with stck := st.stck.pushS line }

/-- The line loop of `_read`. -/
def processLines (o : Oracle) (filename : String) (lines : List String) : ParserState :=
  (List.enumFrom 1 lines).foldl (fun st p => handleLine o st p.1 p.2)
    (ParserState.initState filename)

/-- `sum([x.names for x in self.sections], [])` (sos_script.py:534). -/
def sectionSteps (sections : List SoS_Step) : List (String × Option String) :=
  (sections.map (·.names)).flatten

/-- `workflow_names` (sos_script.py:536), as a duplicate-free list
standing for the Python set. -/
def workflowNamesOf (sections : List SoS_Step) : List String :=
  ((sectionSteps sections).filterMap (fun p =>
    if p.2.isSome && !(p.1.toList.contains '*') then some p.1 else none)).dedup

structure ParseResult where
  state : ParserState
  workflow_names : List String
  workflows : List (String × SoS_Workflow)
deriving Repr

/-- The state after the loop and the final stack check
(sos_script.py:525-527). -/
def finalReadState (o : Oracle) (filename : String) (lines : List String) :
    ParserState :=
  let st := processLines o filename lines
  if !(st.stck.isValid o) then
    st.addError (lines.length - 1) (String.join st.stck.values)
      ("Invalid " ++ (st.stck.category.getD ""))
  else st

/-- `_read` end-to-end: run the loop, do the final stack check, raise the
aggregate `ParsingError` when any error was collected, otherwise compute
the workflows (sos_script.py:525-538). -/
def runRead (o : Oracle) (filename : String) (lines : List String) :
    Except ParsingErrorState ParseResult :=
  let st := finalReadState o filename lines
  if !(st.perrors.errors = []) then .error st.perrors
  else
    let names := workflowNamesOf st.sections
    .ok ⟨st, names, names.map (fun n => (n, SoS_Workflow.init n st.sections))⟩

/-- Witness for C8 at two concrete directive stacks. -/
theorem claim_C8_witness :
    (ExprStack.isValid ⟨some "directive", ["a ,"]⟩ oracleTrue = false) ∧
    (ExprStack.isValid ⟨some "directive", ["a"]⟩ oracleTrue = true) := by
  constructor
  · exact (claim_C8_isValid_directive oracleTrue ⟨some "directive", ["a ,"]⟩ rfl
      (by decide)).1 (by decide)
  · exact ((claim_C8_isValid_directive oracleTrue ⟨some "directive", ["a"]⟩ rfl
      (by decide)).2 (by decide)).mpr rfl

/-! ## Character-class lemmas -/

theorem digit_not_alpha (c : Char) (h : isDigitChar c = true) : c.isAlpha = false := by
  unfold isDigitChar at h
  simp [Char.isDigit, Char.isAlpha, Char.isUpper, Char.isLower, UInt32.le_def,
    BitVec.le_def] at *
  omega

theorem digit_not_space (c : Char) (h : isDigitChar c = true) : isSpaceChar c = false := by
  have h1 : c ≠ ' ' := fun e => by rw [e] at h; exact absurd h (by decide)
  have h2 : c ≠ '\t' := fun e => by rw [e] at h; exact absurd h (by decide)
  have h3 : c ≠ '\n' := fun e => by rw [e] at h; exact absurd h (by decide)
  have h4 : c ≠ '\r' := fun e => by rw [e] at h; exact absurd h (by decide)
  have h5 : c ≠ '\x0b' := fun e => by rw [e] at h; exact absurd h (by decide)
  have h6 : c ≠ '\x0c' := fun e => by rw [e] at h; exact absurd h (by decide)
  simp [isSpaceChar, h1, h2, h3, h4, h5, h6]

theorem digit_not_nameStart (c : Char) (h : isDigitChar c = true) :
    isNameStartChar c = false := by
  have hstar : c ≠ '*' := fun e => by rw [e] at h; exact absurd h (by decide)
  simp [isNameStartChar, digit_not_alpha c h, hstar]

theorem takeWhile_of_all {α : Type} (p : α → Bool) :
    ∀ l : List α, l.all p = true → l.takeWhile p = l := by
  intro l
  induction l with
  | nil => intro _; rfl
  | cons a rest ih =>
    intro h
    rw [List.all_cons, Bool.and_eq_true] at h
    simp [List.takeWhile_cons, h.1, ih h.2]

theorem dropWhile_of_all {α : Type} (p : α → Bool) :
    ∀ l : List α, l.all p = true → l.dropWhile p = [] := by
  intro l
  induction l with
  | nil => intro _; rfl
  | cons a rest ih =>
    intro h
    rw [List.all_cons, Bool.and_eq_true] at h
    simp [List.dropWhile_cons, h.1, ih h.2]

/-- A nonempty all-digit token is matched by `SECTION_NAME` through the
`default_index` branch. -/
theorem matchSectionName_digits (ds : List Char) (h1 : ds ≠ [])
    (h2 : ds.all isDigitChar = true) :
    matchSectionName (String.mk ds) = some (none, none, some (String.mk ds)) := by
  unfold matchSectionName
  cases ds with
  | nil => exact absurd rfl h1
  | cons c rest =>
    rw [List.all_cons, Bool.and_eq_true] at h2
    have htl : (String.mk (c :: rest)).toList = c :: rest := rfl
    rw [htl]
    have hdw : (c :: rest).dropWhile isSpaceChar = c :: rest := by
      simp [List.dropWhile_cons, digit_not_space c h2.1]
    rw [hdw]
    simp only [digit_not_nameStart c h2.1, Bool.false_eq_true, if_false]
    have hall : (c :: rest).all isDigitChar = true := by
      rw [List.all_cons, Bool.and_eq_true]; exact h2
    rw [takeWhile_of_all _ _ hall, dropWhile_of_all _ _ hall]
    simp

/-- Membership in the computed workflow-name set. -/
theorem mem_workflowNamesOf (sections : List SoS_Step) (n : String) :
    n ∈ workflowNamesOf sections ↔
      ∃ s ∈ sections, ∃ p ∈ s.names, p.1 = n ∧ p.2 ≠ none ∧ ¬('*' ∈ n.toList) := by
  unfold workflowNamesOf sectionSteps
  rw [List.mem_dedup, List.mem_filterMap]
  constructor
  · rintro ⟨p, hp, hf⟩
    rcases List.mem_flatten.mp hp with ⟨l, hl, hpl⟩
    rcases List.mem_map.mp hl with ⟨s, hs, rfl⟩
    by_cases hc : (p.2.isSome && !(p.1.toList.contains '*')) = true
    · rw [if_pos hc] at hf
      rw [Bool.and_eq_true] at hc
      rcases hc with ⟨hsome, hnost⟩
      cases hf
      refine ⟨s, hs, p, hpl, rfl, ?_, ?_⟩
      · exact Option.isSome_iff_ne_none.mp hsome
      · simpa using hnost
    · rw [if_neg hc] at hf
      exact absurd hf (by simp)
  · rintro ⟨s, hs, p, hpl, rfl, hsome, hnost⟩
    refine ⟨p, List.mem_flatten.mpr ⟨s.names, List.mem_map.mpr ⟨s, hs, rfl⟩, hpl⟩, ?_⟩
    rw [if_pos]
    rw [Bool.and_eq_true]
    exact ⟨Option.isSome_iff_ne_none.mpr hsome, by simpa using hnost⟩

/-- The `(name, index)` pairs one header token contributes (sos_script.py:429-436). -/
def tokenNames (m : Option (Option String × Option String × Option String)) :
    List (String × Option String) :=
  match m with
  | some (n, i, di) =>
    (match n with | some nv => [(nv, i)] | none => []) ++
    (match di with | some dv => [("default", some dv)] | none => [])
  | none => []

theorem stepNamesOfToken_names (acc : List (String × Option String) × ParserState)
    (lineno : Nat) (line tok : String) :
    (stepNamesOfToken acc lineno line tok).1 =
      acc.1 ++ tokenNames (matchSectionName tok) := by
  unfold stepNamesOfToken tokenNames
  cases matchSectionName tok with
  | none => simp
  | some g =>
    rcases g with ⟨gn, gi, gdi⟩
    simp [List.append_assoc]

def runReadOk (o : Oracle) (filename : String) (lines : List String) :
    Option ParseResult :=
  (runRead o filename lines).toOption

def dfltResult : ParseResult := ⟨ParserState.initState "", [], []⟩

/-! ## Claim theorems for the parser's workflow discovery -/

/-- C5: after a successful parse the workflow-name set is exactly
`{ name | (name, index) ∈ some section's names, index ≠ None, '*' ∉ name }`,
one workflow is materialised per name, and a bare-index header token
contributes the pair `("default", index)`. -/
theorem claim_C5_workflow_names (o : Oracle) (f : String) (lines : List String)
    (res : ParseResult) (n : String) (ds : List Char)
    (hok : runRead o f lines = Except.ok res) :
    (n ∈ res.workflow_names ↔
      ∃ s ∈ res.state.sections, ∃ p ∈ s.names,
        p.1 = n ∧ p.2 ≠ none ∧ ¬('*' ∈ n.toList)) ∧
    res.workflow_names.Nodup ∧
    res.workflows = res.workflow_names.map
      (fun nm => (nm, SoS_Workflow.init nm res.state.sections)) ∧
    (ds ≠ [] → ds.all isDigitChar = true →
      tokenNames (matchSectionName (String.mk ds)) =
        [("default", some (String.mk ds))]) := by
  unfold runRead at hok
  by_cases he : (finalReadState o f lines).perrors.errors = []
  · rw [if_neg (by simp [he])] at hok
    simp only [Except.ok.injEq] at hok
    subst hok
    refine ⟨mem_workflowNamesOf _ n, List.nodup_dedup _, rfl, ?_⟩
    intro h1 h2
    rw [matchSectionName_digits ds h1 h2]
    rfl
  · rw [if_pos (by simp [he])] at hok
    exact absurd hok (by simp)

/-- Witness for C5 on the one-line script `[0]`. -/
theorem claim_C5_witness :
    "default" ∈ ((runReadOk oracleTrue "f" ["[0]"]).getD dfltResult).workflow_names := by
  have h := claim_C5_workflow_names oracleTrue "f" ["[0]"]
    ((runReadOk oracleTrue "f" ["[0]"]).getD dfltResult) "default" ['0'] (by rfl)
  exact (h.1).mpr (by decide)

/-! ## C6: the `#fileformat` header -/

theorem isPrefixOf_head {l1 l2 : List Char} {a : Char}
    (h : l1.isPrefixOf l2 = true) (ha : l1.head? = some a) : l2.head? = some a := by
  cases l1 with
  | nil => simp at ha
  | cons x xs =>
    cases l2 with
    | nil => simp [List.isPrefixOf] at h
    | cons y ys =>
      simp [List.isPrefixOf] at h
      simp only [List.head?] at ha ⊢
      cases ha
      rw [h.1]

theorem matchFormatLine_starts_hash (line fn : String)
    (h : matchFormatLine line = some fn) : line.toList.head? = some '#' := by
  unfold matchFormatLine at h
  by_cases hp : ("#fileformat".toList.isPrefixOf line.toList) = true
  · exact isPrefixOf_head hp rfl
  · rw [if_neg hp] at h
    exact absurd h (by simp)

/-- C6 (amended): a non-`SOS` format token records a parse error; a token
`SOS<version>` sets `format_version` to the version; but a bare `SOS`
token without a version also records a parse error (the version is not
optional) while leaving `format_version` at its default `1.0`; and the
handler is invoked exactly for a `#fileformat = <token>` line of the
first pre-section comment block. -/
theorem claim_C6_format_header (o : Oracle) (st : ParserState) (lineno : Nat)
    (line fn v f : String) :
    (upperStartsSOS fn = false →
      st.perrors.errors.length + 1 ≤
        (handleFormatName st lineno line fn).perrors.errors.length) ∧
    (matchFormatVersion fn = some v →
      (handleFormatName st lineno line fn).format_version = v) ∧
    (matchFormatVersion fn = none → upperStartsSOS fn = true →
      (handleFormatName st lineno line fn).format_version = st.format_version ∧
      (handleFormatName st lineno line fn).perrors.errors.length =
        st.perrors.errors.length + 1) ∧
    matchFormatVersion "SOS1.1" = some "1.1" ∧
    matchFormatVersion "SOS" = none ∧
    (ParserState.initState f).format_version = "1.0" ∧
    (st.hasCursect = false → st.comment_block = 1 → matchFormatLine line = some fn →
      handleLine o st lineno line = handleFormatName st lineno line fn) := by
  refine ⟨?_, ?_, ?_, by decide, by decide, rfl, ?_⟩
  · intro hs
    unfold handleFormatName
    rw [if_pos (by simp [hs])]
    cases hv : matchFormatVersion fn with
    | some v' =>
      simp [ParserState.addError, ParsingErrorState.append]
    | none =>
      simp [ParserState.addError, ParsingErrorState.append]
      try omega
  · intro hv
    unfold handleFormatName
    rw [hv]
  · intro hv hs
    unfold handleFormatName
    rw [hv, if_neg (by simp [hs])]
    exact ⟨rfl, by simp [ParserState.addError, ParsingErrorState.append]⟩
  · intro hcur hcb hml
    have hh := matchFormatLine_starts_hash line fn hml
    unfold handleLine
    dsimp only
    rw [hh, hcur, hcb]
    simp [hml]

def readErrors (r : Except ParsingErrorState ParseResult) :
    Option (List (Nat × String)) :=
  match r with
  | .error e => some e.errors
  | .ok _ => none

/-- C6 counterexample: `#fileformat = SOS` with no version is a parse
error — the version is not optional — while `SOS1.1` parses and sets
`format_version` to `1.1`. -/
theorem claim_C6_counterexample :
    readErrors (runRead oracleTrue "f" ["#fileformat=SOS", "[0]"]) =
      some [(1, "#fileformat=SOS")] ∧
    (runReadOk oracleTrue "f" ["#fileformat=SOS1.1", "[0]"]).map
      (fun r => r.state.format_version) = some "1.1" := by
  exact ⟨by decide, by decide⟩

/-- Witness for C6 at the format token `SS2`. -/
theorem claim_C6_witness :
    1 ≤ (handleFormatName (ParserState.initState "f") 1 "#fileformat=SS2" "SS2").perrors.errors.length := by
  have h := (claim_C6_format_header oracleTrue (ParserState.initState "f") 1
    "#fileformat=SS2" "SS2" "" "f").1 (by decide)
  simpa using h

/-! ## C7: error aggregation -/

/-- `b` extends `a` by appending parse errors only. -/
def errorsExt (a b : ParserState) : Prop :=
  ∃ t, b.perrors.errors = a.perrors.errors ++ t

theorem errorsExt_refl (a : ParserState) : errorsExt a a := ⟨[], by simp⟩

theorem errorsExt_trans {a b c : ParserState} (h1 : errorsExt a b)
    (h2 : errorsExt b c) : errorsExt a c := by
  rcases h1 with ⟨t1, h1⟩
  rcases h2 with ⟨t2, h2⟩
  exact ⟨t1 ++ t2, by rw [h2, h1, List.append_assoc]⟩

theorem addError_ext (st : ParserState) (n : Nat) (l m : String) :
    errorsExt st (st.addError n l m) := ⟨[(n, l)], rfl⟩

theorem flushStack_ext (o : Oracle) (st : ParserState) (n : Nat) :
    errorsExt st (flushStack o st n) := by
  unfold flushStack
  split
  · exact ⟨[(n - 1, String.join st.stck.values)], rfl⟩
  · exact ⟨[], by simp⟩

theorem handleFormatName_ext (st : ParserState) (n : Nat) (line fn : String) :
    errorsExt st (handleFormatName st n line fn) := by
  unfold handleFormatName
  split
  · cases matchFormatVersion fn with
    | some v => exact ⟨[(n, line)], rfl⟩
    | none =>
      exact errorsExt_trans (addError_ext st n line _) (addError_ext _ n line _)
  · cases matchFormatVersion fn with
    | some v => exact ⟨[], by simp⟩
    | none => exact addError_ext st n line _

theorem stepNamesFold_ext (lineno : Nat) (line : String) :
    ∀ (toks : List String) (acc : List (String × Option String) × ParserState),
      errorsExt acc.2
        ((toks.foldl (fun a tok => stepNamesOfToken a lineno line tok) acc).2) := by
  intro toks
  induction toks with
  | nil => intro acc; exact errorsExt_refl _
  | cons tok rest ih =>
    intro acc
    rw [List.foldl_cons]
    refine errorsExt_trans ?_ (ih _)
    unfold stepNamesOfToken
    cases matchSectionName tok with
    | some g => exact errorsExt_refl _
    | none => exact addError_ext _ _ _ _

theorem optionsFold_ext (lineno : Nat) (line : String) :
    ∀ (toks : List String) (acc : List (String × Option String) × ParserState),
      errorsExt acc.2
        ((toks.foldl (fun a tok =>
          match matchSectionOption tok with
          | some nv => (a.1 ++ [nv], a.2)
          | none => (a.1, a.2.addError (lineno - 1) line "Invalid section option")) acc).2) := by
  intro toks
  induction toks with
  | nil => intro acc; exact errorsExt_refl _
  | cons tok rest ih =>
    intro acc
    rw [List.foldl_cons]
    refine errorsExt_trans ?_ (ih _)
    cases matchSectionOption tok with
    | some nv => exact errorsExt_refl _
    | none => exact addError_ext _ _ _ _

theorem handleSectionHeader_ext (o : Oracle) (st : ParserState) (n : Nat)
    (line sn : String) (so : Option String) :
    errorsExt st (handleSectionHeader o st n line sn so) := by
  unfold handleSectionHeader
  dsimp only
  refine errorsExt_trans (flushStack_ext o st n) ?_
  refine errorsExt_trans
    (stepNamesFold_ext n line ((splitOnComma (pyStrip sn).toList).map String.mk)
      (([] : List (String × Option String)), flushStack o st n)) ?_
  cases so with
  | none => exact ⟨[], by simp⟩
  | some sov =>
    refine errorsExt_trans
      (optionsFold_ext n line ((splitOnComma sov.toList).map String.mk)
        (([] : List (String × Option String)),
         (List.foldl (fun acc tok => stepNamesOfToken acc n line tok)
           (([] : List (String × Option String)), flushStack o st n)
           ((splitOnComma (pyStrip sn).toList).map String.mk)).2)) ?_
    exact ⟨[], by simp⟩

theorem handleAssignment_ext (o : Oracle) (st : ParserState) (n : Nat)
    (line vn vv : String) : errorsExt st (handleAssignment o st n line vn vv) := by
  unfold handleAssignment
  dsimp only
  repeat' split
  all_goals exact flushStack_ext o _ n

theorem handleDirective_ext (o : Oracle) (st : ParserState) (n : Nat)
    (line dn dv : String) : errorsExt st (handleDirective o st n line dn dv) := by
  unfold handleDirective
  dsimp only
  repeat' split
  all_goals
    first
    | exact flushStack_ext o st n
    | exact errorsExt_trans (flushStack_ext o st n) (addError_ext _ _ _ _)

theorem handleLine_ext (o : Oracle) (st : ParserState) (n : Nat) (l : String) :
    errorsExt st (handleLine o st n l) := by
  unfold handleLine
  dsimp only
  repeat' split
  all_goals
    first
    | exact handleFormatName_ext _ _ _ _
    | exact handleSectionHeader_ext o _ _ _ _ _
    | exact handleAssignment_ext o _ _ _ _ _
    | exact handleDirective_ext o _ _ _ _ _
    | exact addError_ext _ _ _ _
    | exact ⟨[], by simp [ParserState.withCur]⟩

theorem foldLines_ext (o : Oracle) :
    ∀ (ps : List (Nat × String)) (st : ParserState),
      errorsExt st (ps.foldl (fun s p => handleLine o s p.1 p.2) st) := by
  intro ps
  induction ps with
  | nil => intro st; exact errorsExt_refl st
  | cons p rest ih =>
    intro st
    rw [List.foldl_cons]
    exact errorsExt_trans (handleLine_ext o st p.1 p.2) (ih _)

theorem enumFrom_take {α : Type} :
    ∀ (l : List α) (k n : Nat),
      List.enumFrom n (l.take k) = (List.enumFrom n l).take k := by
  intro l
  induction l with
  | nil => intro k n; simp
  | cons a rest ih =>
    intro k n
    cases k with
    | zero => simp
    | succ k2 => simp [List.enumFrom, List.take_succ_cons, ih k2 (n + 1)]

theorem processLines_take_ext (o : Oracle) (f : String) (lines : List String)
    (k : Nat) : errorsExt (processLines o f (lines.take k)) (processLines o f lines) := by
  unfold processLines
  rw [enumFrom_take]
  conv_rhs => rw [← List.take_append_drop k (List.enumFrom 1 lines)]
  rw [List.foldl_append]
  exact foldLines_ext o _ _

theorem finalReadState_ext (o : Oracle) (f : String) (lines : List String) :
    errorsExt (processLines o f lines) (finalReadState o f lines) := by
  unfold finalReadState
  dsimp only
  split
  · exact addError_ext _ _ _ _
  · exact errorsExt_refl _

/-- C7 (amended): all parse failures are collected into the single
aggregate `ParsingError` raised once after the whole input is read — the
errors recorded while reading any prefix of the input are still present
in the raised aggregate — but each recorded entry is a
`(line_number, line_text)` pair; the message is folded into the
aggregate's message string instead. -/
theorem claim_C7_error_aggregation (o : Oracle) (f : String) (lines : List String)
    (s : ParsingErrorState) (n : Nat) (l m : String) (k : Nat) :
    ((s.append n l m).errors = s.errors ++ [(n, l)] ∧
     (s.append n l m).message = s.message ++
       ("\n\t[line " ++ fmtLineno n ++ "]: " ++ l ++ "\n" ++ m)) ∧
    (match runRead o f lines with
     | .error pe => pe.errors ≠ [] ∧
         ∃ t, pe.errors = (processLines o f (lines.take k)).perrors.errors ++ t
     | .ok res => res.state.perrors.errors = [] ∧
         (processLines o f (lines.take k)).perrors.errors = []) := by
  refine ⟨⟨rfl, by simp [ParsingErrorState.append, String.append_assoc]⟩, ?_⟩
  have hext := errorsExt_trans (processLines_take_ext o f lines k)
    (finalReadState_ext o f lines)
  unfold runRead
  dsimp only
  by_cases hc : (finalReadState o f lines).perrors.errors = []
  · rw [if_neg (by simp [hc])]
    dsimp only
    refine ⟨hc, ?_⟩
    rcases hext with ⟨t, ht⟩
    rw [hc] at ht
    exact (List.append_eq_nil.mp ht.symm).1
  · rw [if_pos (by simp [hc])]
    dsimp only
    exact ⟨hc, hext⟩

/-- C7 counterexample: the recorded entries are `(lineno, line)` pairs —
two `append` calls that differ only in the message yield identical
`errors` lists, so no message component is present in the tuples. -/
theorem claim_C7_counterexample :
    ((ParsingErrorState.init "f").append 3 "x" "message A").errors =
      ((ParsingErrorState.init "f").append 3 "x" "message B").errors ∧
    "message A" ≠ "message B" ∧
    ((ParsingErrorState.init "f").append 3 "x" "message A").errors = [(3, "x")] := by
  exact ⟨rfl, by decide, rfl⟩

/-! ## `src/sos/controller.py`: the signature controller poll loop

Messages are the serialised tuples of §4.7.  The three signature stores
(`signatures.py`) are external collaborators; their calls are embedded
as appended log entries (assumed non-throwing).  The progress rendering
at verbosity 1 only writes to stderr and updates display counters from
the real-time clock, so it is outside the embedding; the data effects
(`_nprocs`, `_completed`, `_ignored`) are embedded.  `KeyboardInterrupt`
is not part of the message model. -/

inductive PyMsg where
  | pynone
  | workflowSig (payload : List String)
  | targetSig (payload : List String)
  | stepSig (payload : List String)
  | nprocsMsg (n : Int)
  | progressMsg (event : String) (sv : Int)
  | nprocsReq
  | unknown
deriving DecidableEq, Repr

structure CtrlState where
  _nprocs : Int
  _completed : List (Int × Nat)
  _ignored : List (Int × Nat)
  sigWrites : List (String × List String)
  sigReplies : List PyMsg
  ctlReplies : List Int
  warnings : Nat
  sigPushClosed : Bool
  sigReqClosed : Bool
  ctlPushClosed : Bool
  ctlReqClosed : Bool
deriving DecidableEq, Repr

def CtrlState.initState : CtrlState :=
  ⟨0, [], [], [], [], [], 0, false, false, false, false⟩

/-- `defaultdict(int)` increment `d[k] += 1`. -/
def bump (l : List (Int × Nat)) (k : Int) : List (Int × Nat) :=
  match l with
  | [] => [(k, 1)]
  | (k2, v) :: rest => if k2 = k then (k2, v + 1) :: rest else (k2, v) :: bump rest k

/-- `sig_push` handling (controller.py:92-104). -/
def handleSigPush (st : CtrlState) (m : PyMsg) : CtrlState :=
  match m with
  | .workflowSig p => { st with sigWrites := st.sigWrites ++ [("workflow", p)] }
  | .targetSig p => { st with sigWrites := st.sigWrites ++ [("target", p)] }
  | .stepSig p => { st with sigWrites := st.sigWrites ++ [("step", p)] }
  | _ => { st with warnings := st.warnings + 1 }

/-- `sig_req` handling (controller.py:106-133).  A recognised request
sends one reply; an unrecognised sub-kind only logs a warning; a
request whose kind raises falls into the `except` branch, which warns
and replies `None`. -/
def handleSigReq (st : CtrlState) (m : PyMsg) : CtrlState :=
  match m with
  | .workflowSig ("clear" :: _) => { st with sigReplies := st.sigReplies ++ [m] }
  | .workflowSig ("placeholders" :: _ :: _) => { st with sigReplies := st.sigReplies ++ [m] }
  | .workflowSig ("records" :: _ :: _) => { st with sigReplies := st.sigReplies ++ [m] }
  | .workflowSig ("placeholders" :: []) =>
    { st with warnings := st.warnings + 1, sigReplies := st.sigReplies ++ [.pynone] }
  | .workflowSig ("records" :: []) =>
    { st with warnings := st.warnings + 1, sigReplies := st.sigReplies ++ [.pynone] }
  | .workflowSig _ => { st with warnings := st.warnings + 1 }
  | .targetSig ("get" :: _ :: _) => { st with sigReplies := st.sigReplies ++ [m] }
  | .targetSig ("get" :: []) =>
    { st with warnings := st.warnings + 1, sigReplies := st.sigReplies ++ [.pynone] }
  | .targetSig _ => { st with warnings := st.warnings + 1 }
  | .stepSig ("get" :: rest) => { st with sigReplies := st.sigReplies ++ [m] }
  | .stepSig _ => { st with warnings := st.warnings + 1 }
  | _ => { st with warnings := st.warnings + 1, sigReplies := st.sigReplies ++ [.pynone] }

/-- `ctl_push` handling (controller.py:135-187); the returned flag is the
`break` on a `None` message. -/
def handleCtlPush (st : CtrlState) (m : PyMsg) : CtrlState × Bool :=
  match m with
  | .pynone => (st, true)
  | .nprocsMsg n => ({ st with _nprocs := n }, false)
  | .progressMsg ev sv =>
    if ev = "substep_ignored" then ({ st with _ignored := bump st._ignored sv }, false)
    else if ev = "substep_completed" then
      ({ st with _completed := bump st._completed sv }, false)
    else (st, false)
  | _ => ({ st with warnings := st.warnings + 1 }, false)

/-- `ctl_req` handling (controller.py:189-197); an unrecognised request
warns without replying. -/
def handleCtlReq (st : CtrlState) (m : PyMsg) : CtrlState :=
  match m with
  | .nprocsReq => { st with ctlReplies := st.ctlReplies ++ [st._nprocs] }
  | _ => { st with warnings := st.warnings + 1 }

/-- One poll cycle delivers at most one pending message per socket. -/
structure Round where
  sigPushMsg : Option PyMsg
  sigReqMsg : Option PyMsg
  ctlPushMsg : Option PyMsg
  ctlReqMsg : Option PyMsg
deriving DecidableEq, Repr

/-- The first two socket blocks of one loop iteration, which run before
the `ctl_push` block. -/
def preCtl (st : CtrlState) (r : Round) : CtrlState :=
  let st := match r.sigPushMsg with
    | some m => handleSigPush st m
    | none => st
  match r.sigReqMsg with
  | some m => handleSigReq st m
  | none => st

/-- One iteration of the `while True` poll loop (controller.py:88-205).
On `break` the `ctl_req` block of the same iteration is skipped. -/
def processRound (st : CtrlState) (r : Round) : CtrlState × Bool :=
  let st := preCtl st r
  match r.ctlPushMsg with
  | some m =>
    let p := handleCtlPush st m
    if p.2 then (p.1, true)
    else
      (match r.ctlReqMsg with
       | some m2 => handleCtlReq p.1 m2
       | none => p.1, false)
  | none =>
    (match r.ctlReqMsg with
     | some m2 => handleCtlReq st m2
     | none => st, false)

/-- The poll loop over a finite arrival trace.  `none` means the trace
was exhausted without a shutdown: the Python loop is still blocked in
`poller.poll()`. -/
def runLoop (st : CtrlState) : List Round → Option CtrlState
  | [] => none
  | r :: rest =>
    let p := processRound st r
    if p.2 then some p.1 else runLoop p.1 rest

/-- The epilogue (controller.py:207-210): close all four sockets. -/
def closeAll (st : CtrlState) : CtrlState :=
  { st with
    sigPushClosed := true
    sigReqClosed := true
    ctlPushClosed := true
    ctlReqClosed := true }

/-- `Controller.run` on an arrival trace. -/
def Controller.run (st : CtrlState) (rounds : List Round) : Option CtrlState :=
  match runLoop st rounds with
  | some st2 => some (closeAll st2)
  | none => none

/-- Processing rounds without a shutdown. -/
def processRounds (st : CtrlState) (rs : List Round) : CtrlState :=
  rs.foldl (fun s r => (processRound s r).1) st

theorem processRound_no_break (st : CtrlState) (r : Round)
    (h : r.ctlPushMsg ≠ some PyMsg.pynone) : (processRound st r).2 = false := by
  unfold processRound
  cases hm : r.ctlPushMsg with
  | none => rfl
  | some m =>
    cases m with
    | pynone => exact absurd hm h
    | workflowSig p => rfl
    | targetSig p => rfl
    | stepSig p => rfl
    | nprocsMsg n => rfl
    | progressMsg ev sv =>
      dsimp only [handleCtlPush]
      split_ifs <;> first | rfl | assumption
    | nprocsReq => rfl
    | unknown => rfl

theorem runLoop_shutdown (r : Round) (rs2 : List Round)
    (hr : r.ctlPushMsg = some PyMsg.pynone) :
    ∀ (rs1 : List Round) (st : CtrlState),
      (∀ rd ∈ rs1, rd.ctlPushMsg ≠ some PyMsg.pynone) →
      runLoop st (rs1 ++ r :: rs2) = some (preCtl (processRounds st rs1) r) := by
  intro rs1
  induction rs1 with
  | nil =>
    intro st _
    rw [List.nil_append]
    unfold runLoop processRound
    dsimp only
    rw [hr]
    rfl
  | cons rd rest ih =>
    intro st h1
    have hrd : rd.ctlPushMsg ≠ some PyMsg.pynone := h1 rd (by simp)
    have hnb := processRound_no_break st rd hrd
    rw [List.cons_append]
    unfold runLoop
    dsimp only
    rw [hnb]
    simp only [Bool.false_eq_true, if_false]
    rw [ih (processRound st rd).1 (fun x hx => h1 x (by simp [hx]))]
    rfl

/-- C9: a `None` on `ctl_push` makes the controller exit the poll loop
after the `sig_push`/`sig_req` blocks of that cycle, skip that cycle's
`ctl_req` block, process nothing that arrives later, and close all four
sockets. -/
theorem claim_C9_shutdown (st0 : CtrlState) (rs1 rs2 : List Round) (r : Round)
    (h1 : ∀ rd ∈ rs1, rd.ctlPushMsg ≠ some PyMsg.pynone)
    (hr : r.ctlPushMsg = some PyMsg.pynone) :
    Controller.run st0 (rs1 ++ r :: rs2) =
      some (closeAll (preCtl (processRounds st0 rs1) r)) ∧
    Controller.run st0 (rs1 ++ r :: rs2) = Controller.run st0 (rs1 ++ [r]) ∧
    (∀ st : CtrlState, (closeAll st).sigPushClosed = true ∧
      (closeAll st).sigReqClosed = true ∧ (closeAll st).ctlPushClosed = true ∧
      (closeAll st).ctlReqClosed = true) := by
  have hrun : ∀ rs2b : List Round, Controller.run st0 (rs1 ++ r :: rs2b) =
      some (closeAll (preCtl (processRounds st0 rs1) r)) := by
    intro rs2b
    unfold Controller.run
    rw [runLoop_shutdown r rs2b hr rs1 st0 h1]
  exact ⟨hrun rs2, by rw [hrun rs2, hrun []], fun st => ⟨rfl, rfl, rfl, rfl⟩⟩

/-- Witness for C9: two plain rounds, a shutdown round, a late round. -/
theorem claim_C9_witness :
    Controller.run CtrlState.initState
      [⟨some (PyMsg.targetSig ["t", "sig1"]), none, some (PyMsg.nprocsMsg 2), none⟩,
       ⟨none, some (PyMsg.targetSig ["get", "t"]), some PyMsg.pynone, some PyMsg.nprocsReq⟩,
       ⟨some (PyMsg.targetSig ["u", "sig2"]), none, none, none⟩] =
      some (closeAll (preCtl (processRounds CtrlState.initState
        [⟨some (PyMsg.targetSig ["t", "sig1"]), none, some (PyMsg.nprocsMsg 2), none⟩])
        ⟨none, some (PyMsg.targetSig ["get", "t"]), some PyMsg.pynone, some PyMsg.nprocsReq⟩)) := by
  exact (claim_C9_shutdown CtrlState.initState
    [⟨some (PyMsg.targetSig ["t", "sig1"]), none, some (PyMsg.nprocsMsg 2), none⟩]
    [⟨some (PyMsg.targetSig ["u", "sig2"]), none, none, none⟩]
    ⟨none, some (PyMsg.targetSig ["get", "t"]), some PyMsg.pynone, some PyMsg.nprocsReq⟩
    (by intro rd hrd; simp at hrd; rw [hrd]; decide)
    rfl).1

end SoS
